import Mathlib

/-
Verification development for the alarm-craft reconciliation engine.

The Python sources are shallowly embedded:
* Python dicts become association lists (`Dict`) with first-match lookup;
  `Dict.set` models `d[k] = v` (replace in place, else append) and
  `Dict.merge` models `d1 | d2` / `d.update(d2)` (right operand wins).
* Heterogeneous dict values (strings, ints, lists of strings, lists of
  name/value records) become the inductive `PVal`.
* The CloudWatch / ResourceGroupsTaggingAPI backends become explicit page
  lists or call-event traces; `sleep` becomes a trace event.
* In-place mutation of the shared config dict becomes explicit state passing
  (the function returns the updated config).
-/

/-- Values stored in embedded Python dicts: strings, ints, lists of strings
(action lists) and lists of name/value pairs (tag lists, dimension lists). -/
inductive PVal where
  | str : String → PVal
  | int : Int → PVal
  | strList : List String → PVal
  | kvList : List (String × String) → PVal
deriving DecidableEq

/-- A Python dict embedded as an association list (first match wins on
lookup; real Python dicts have unique keys). -/
def Dict (α : Type) : Type := List (String × α)

instance (α : Type) [DecidableEq α] : DecidableEq (Dict α) :=
  inferInstanceAs (DecidableEq (List (String × α)))

/-- Lookup, as in `d.get(k)` / `d[k]`: value of the first entry whose key is `k`. -/
def Dict.get? {α : Type} (d : Dict α) (k : String) : Option α :=
  (d.find? (fun p => p.1 == k)).map (fun p => p.2)

/-- The list of keys of a dict. -/
def Dict.keys {α : Type} (d : Dict α) : List String :=
  d.map (fun p => p.1)

/-- Emptiness, matching Python truthiness of a dict (`if d:` is false iff `d == {}`). -/
def Dict.isEmpty {α : Type} (d : Dict α) : Bool :=
  List.isEmpty d

/-- Python `d[k] = v`: replace the value of the existing entry for `k` in
place, otherwise append the new entry at the end. -/
def Dict.set {α : Type} : Dict α → String → α → Dict α
  | [], k, v => [(k, v)]
  | p :: rest, k, v => if p.1 == k then (k, v) :: rest else p :: Dict.set rest k v

/-- Python `d1 | d2` (also `d1.update(d2)` seen from the result): fold the
entries of `d2` into `d1`, the right operand winning on key collision. -/
def Dict.merge {α : Type} (d e : Dict α) : Dict α :=
  e.foldl (fun acc p => Dict.set acc p.1 p.2) d

/-
Changeset Calculator: `AlarmHandler.get_alarms_change_set`
(src/src/alarm_craft/alarm.py, lines 38-58).
-/

/-- A desired alarm spec as consumed by `AlarmHandler.get_alarms_change_set`:
a dict carrying the required `"AlarmName"` key (held in field `alarmName`)
plus the remaining alarm properties. -/
structure MetricAlarmParam where
  alarmName : String
  props : Dict PVal
deriving DecidableEq

/-- Embeds `AlarmHandler.get_alarms_change_set`.  The current alarms fetched
by name-prefix are abstracted to their name set `currentAlarmNames` (the code
builds exactly this set on line 51); the Python `set`s become `Finset`s.
Returns (need_to_create, no_update, need_to_delete). -/
def getAlarmsChangeSet (alarmParams : List MetricAlarmParam)
    (currentAlarmNames : Finset String) :
    List MetricAlarmParam × Finset String × Finset String :=
  let requiredAlarmNames : Finset String :=
    (alarmParams.map MetricAlarmParam.alarmName).toFinset
  let needToCreate :=
    alarmParams.filter (fun alm => decide (alm.alarmName ∉ currentAlarmNames))
  let needToDelete := currentAlarmNames \ requiredAlarmNames
  let noUpdate := currentAlarmNames \ needToDelete
  (needToCreate, noUpdate, needToDelete)

/-
Apply Engine: `AlarmHandler._create_alarms` / `AlarmHandler._delete_alarms`
(src/src/alarm_craft/alarm.py, lines 91-137).
-/

/-- The `config["globals"]["alarm"]` section used by `AlarmHandler`.
`namePre` holds `alarm_name_prefix`; `alarmTagging` is the optional
`alarm_tagging` map as an ordered key/value list (`none` when absent). -/
structure AlarmSectionConfig where
  namePre : String
  alarmActions : List String
  defaultAlarmParams : Dict PVal
  alarmTagging : Option (List (String × String))
deriving DecidableEq

/-- The `config["globals"]` section. -/
structure GlobalsConfig where
  alarm : AlarmSectionConfig
  apiCallIntervalsInMillis : Int
deriving DecidableEq

/-- The config dict held by `AlarmHandler`. -/
structure Config where
  globals : GlobalsConfig
deriving DecidableEq

/-- Lines 92-105 of `_create_alarms`: the shared `common_param` dict after the
in-place assignments.  Starting from `default_alarm_params`, the three action
keys are assigned the concatenation `alarm_actions + additional_alarm_actions`,
then, when `alarm_tagging` is truthy (present and non-empty), `Tags` is
assigned its key/value pairs (`[{"Key": k, "Value": v} ...]`, modelled as the
pair list itself). -/
def buildCommonParam (alarmConf : AlarmSectionConfig)
    (additionalAlarmActions : List String) : Dict PVal :=
  let dests := alarmConf.alarmActions ++ additionalAlarmActions
  let c := ((alarmConf.defaultAlarmParams.set "AlarmActions" (.strList dests)).set
      "OKActions" (.strList dests)).set "InsufficientDataActions" (.strList dests)
  match alarmConf.alarmTagging with
  | some tags => if tags.isEmpty then c else c.set "Tags" (.kvList tags)
  | none => c

/-- Line 111 of `_create_alarms`: the final parameters of one created alarm,
`alarm_param = common_param | alm`. -/
def createdAlarmParam (alarmConf : AlarmSectionConfig)
    (additionalAlarmActions : List String) (alm : Dict PVal) : Dict PVal :=
  Dict.merge (buildCommonParam alarmConf additionalAlarmActions) alm

/-- Observable backend/timing actions of the Apply Engine:
`put_metric_alarm`, `delete_alarms`, and `sleep` (the argument is the
configured interval in milliseconds; the code sleeps `interval / 1000`
seconds, i.e. exactly that many milliseconds). -/
inductive ApiEvent where
  | createCall : Dict PVal → ApiEvent
  | deleteCall : List String → ApiEvent
  | pauseMillis : Int → ApiEvent
deriving DecidableEq

/-- Whether an event is a `put_metric_alarm` call. -/
def ApiEvent.isCreate : ApiEvent → Bool
  | .createCall _ => true
  | _ => false

/-- Whether an event is a `delete_alarms` call. -/
def ApiEvent.isDeleteCall : ApiEvent → Bool
  | .deleteCall _ => true
  | _ => false

/-- Whether an event is a `sleep`. -/
def ApiEvent.isPause : ApiEvent → Bool
  | .pauseMillis _ => true
  | _ => false

/-- Embeds `_create_alarms` as a pure state transformer: returns the trace of
backend calls and sleeps, and the config after the call.  The Python code
mutates the config's `default_alarm_params` dict in place through the
`common_param` alias; here that heap effect is returned as the updated config.
The pause condition `interval > 0` is on `millis / 1000` as an exact real
division, hence equivalent to `0 < millis`. -/
def createAlarmsRun (cfg : Config) (alarmParams : List (Dict PVal))
    (additionalAlarmActions : List String) : List ApiEvent × Config :=
  let commonParam := buildCommonParam cfg.globals.alarm additionalAlarmActions
  let interval := cfg.globals.apiCallIntervalsInMillis
  (alarmParams.flatMap (fun alm =>
      ApiEvent.createCall (Dict.merge commonParam alm) ::
        (if 0 < interval then [ApiEvent.pauseMillis interval] else [])),
    { cfg with globals := { cfg.globals with alarm :=
        { cfg.globals.alarm with defaultAlarmParams := commonParam } } })

/-- The chunks produced by `_delete_alarms`: Python
`for i in range(0, len(l), chunk_size)` with slice `l[i : i + 100]`,
written with chunk index `i` so the slice is `drop (i * 100)` then `take 100`;
`range(0, n, 100)` has `(n + 99) / 100` elements. -/
def deleteAlarmsChunks (alarmsToDelete : List String) : List (List String) :=
  (List.range ((alarmsToDelete.length + 99) / 100)).map
    (fun i => (alarmsToDelete.drop (i * 100)).take 100)

/-- Embeds `_delete_alarms` as a trace: one `delete_alarms` call per chunk,
followed by a sleep when the configured interval is positive. -/
def deleteAlarmsTrace (intervalMillis : Int) (alarmsToDelete : List String) :
    List ApiEvent :=
  (deleteAlarmsChunks alarmsToDelete).flatMap (fun chunk =>
    ApiEvent.deleteCall chunk ::
      (if 0 < intervalMillis then [ApiEvent.pauseMillis intervalMillis] else []))

/-
Current-alarm pagination: `AlarmHandler._get_current_alarms`
(src/src/alarm_craft/alarm.py, lines 60-76).
-/

/-- One `describe_alarms` request: continuation token (page index; index 0
models the initial `""` token), the alarm-name filter, and `MaxRecords`. -/
structure DescribeAlarmsRequest where
  nextToken : Nat
  alarmNamePre : String
  maxRecords : Nat
deriving DecidableEq

/-- The backend `describe_alarms` call, modelled as a token-indexed function
over a list of pages: token `i` returns page `i` and the token `i + 1` when a
further page exists (`none` models an absent/empty `NextToken`). -/
def describeAlarms (pages : List (List String)) (token : Nat) :
    List String × Option Nat :=
  ((pages.drop token).headD [],
    if token + 1 < pages.length then some (token + 1) else none)

/-- The `while True` fetch loop of `_get_current_alarms`: issue a request with
`MaxRecords=100`, yield the page, continue on the returned token while it is
present, stop otherwise.  `fuel` bounds the recursion; the loop is run with
fuel `max pages.length 1`, enough for every reachable token. -/
def getCurrentAlarmsAux (pages : List (List String)) (pre : String) :
    Nat → Nat → List DescribeAlarmsRequest × List String
  | _token, 0 => ([], [])
  | token, fuel + 1 =>
    let req : DescribeAlarmsRequest := ⟨token, pre, 100⟩
    let resp := describeAlarms pages token
    match resp.2 with
    | some t =>
      let rest := getCurrentAlarmsAux pages pre t fuel
      (req :: rest.1, resp.1 ++ rest.2)
    | none => ([req], resp.1)

/-- Embeds `_get_current_alarms` (fully consumed, as by the set comprehension
on line 51): the requests issued and the concatenation of all fetched pages. -/
def getCurrentAlarms (pages : List (List String)) (pre : String) :
    List DescribeAlarmsRequest × List String :=
  getCurrentAlarmsAux pages pre 0 (max pages.length 1)

/-
Facade: `get_target_metrics` / `_get_target_metrics_providers`
(src/src/alarm_craft/monitoring_targets/facade.py).
-/

/-- One entry of `config["resources"]`: its key and `target_resource_type`. -/
structure ResourceGroup where
  groupKey : String
  targetResourceType : String
deriving DecidableEq

/-- Observable actions while consuming `get_target_metrics`: an enumeration
backend call made on behalf of a resource group, or the `ValueError` raised
for an unknown resource type. -/
inductive EnumEvent where
  | backendCall : String → EnumEvent
  | configError : String → EnumEvent
deriving DecidableEq

/-- Embeds the consumption of the generator `get_target_metrics` (as by
`list(...)` in `core.main`): groups are processed in config order; a group
whose `target_resource_type` resolves in the provider registry has its
provider's `get_metric_alarms` consumed — performing that group's backend
enumeration calls (`numBackendCalls`, at least one per group in reality) —
before the next group's provider is even looked up; an unresolved type raises
`ValueError`, ending the run. -/
def runGetTargetMetrics (known : List String) (numBackendCalls : String → Nat) :
    List ResourceGroup → List EnumEvent
  | [] => []
  | g :: rest =>
    if g.targetResourceType ∈ known then
      List.replicate (numBackendCalls g.groupKey) (EnumEvent.backendCall g.groupKey)
        ++ runGetTargetMetrics known numBackendCalls rest
    else
      [EnumEvent.configError g.targetResourceType]

/-
Superseded-iteration Builder: `TargetMetricsProviderBase.get_metric_alarms` /
`alarm_name` (src/alarm_craft/monitoring_targets.py, lines 103-145).
-/

/-- One service's config in the superseded iteration
(`config["service_config"][name]`): namespace, metric list and the optional
`alarm_param_overrides` map. -/
structure OldServiceConfig where
  nspace : String
  metrics : List String
  alarmParamOverrides : Option (Dict (Dict PVal))

/-- A concrete provider of the superseded iteration: the global
`alarm_name_prefix` (`namePre`), the service config, the enumerated resources,
and the strategy hooks `get_resource_name` / `dimensions`. -/
structure OldProvider where
  namePre : String
  svc : OldServiceConfig
  resources : List String
  resourceNameOf : String → String
  dimensionsOf : String → String → List (String × String)

/-- `TargetMetricsProviderBase.alarm_name`:
`f"{config['alarm_config']['alarm_name_prefix']}{name}-{metric_name}"`. -/
def oldAlarmName (p : OldProvider) (metricName resource : String) : String :=
  p.namePre ++ p.resourceNameOf resource ++ "-" ++ metricName

/-- `TargetMetricsProviderBase.description`. -/
def oldDescription (p : OldProvider) (metricName resource : String) : String :=
  "Metric Alarm for `" ++ metricName ++ "` of " ++ p.resourceNameOf resource

/-- `TargetMetricsProviderBase.param_overrides` (superseded iteration):
`service_config.get("alarm_param_overrides")`, truthiness-checked, then
`.get(metric_name)`, truthiness-checked. -/
def oldParamOverrides (p : OldProvider) (metricName : String) : Option (Dict PVal) :=
  match p.svc.alarmParamOverrides with
  | some ovs =>
    if ovs.isEmpty then none
    else
      match ovs.get? metricName with
      | some params => if params.isEmpty then none else some params
      | none => none
  | none => none

/-- The loop body of `get_metric_alarms` (superseded iteration): the flat
alarm dict with computed `AlarmName`, then `param.update(param_overrides)`
when overrides apply. -/
def oldBuildParam (p : OldProvider) (metric resource : String) : Dict PVal :=
  let base : Dict PVal :=
    [("AlarmName", .str (oldAlarmName p metric resource)),
     ("AlarmDescription", .str (oldDescription p metric resource)),
     ("MetricName", .str metric),
     ("Namespace", .str p.svc.nspace),
     ("Dimensions", .kvList (p.dimensionsOf metric resource))]
  match oldParamOverrides p metric with
  | some ov => Dict.merge base ov
  | none => base

/-- `TargetMetricsProviderBase.get_metric_alarms` (superseded iteration): for
each resource, for each configured metric, one alarm dict. -/
def oldGetMetricAlarms (p : OldProvider) : List (Dict PVal) :=
  p.resources.flatMap (fun resource =>
    p.svc.metrics.map (fun metric => oldBuildParam p metric resource))

/-
Current Builder: `TargetMetricsProviderBase`
(src/src/alarm_craft/monitoring_targets/target_metrics_provider.py).
-/

/-- The `alarm` sub-record of a resource config (`ResourceAlarmConfig` in
models.py): optional namespace, metric list, optional overrides map. -/
structure ResourceAlarmConfig where
  nspace : Option String
  metrics : List String
  alarmParamOverrides : Option (Dict (Dict PVal))
deriving DecidableEq

/-- `TargetMetricsProviderBase.param_overrides` (current iteration):
`resource_config["alarm"].get("alarm_param_overrides")`, truthiness-checked,
then `.get(metric_name)` with no further check. -/
def newParamOverrides (cfg : ResourceAlarmConfig) (metricName : String) :
    Option (Dict PVal) :=
  match cfg.alarmParamOverrides with
  | some ovs => if ovs.isEmpty then none else ovs.get? metricName
  | none => none

/-- `TargetMetricsProviderBase.namespace`: the configured value when truthy
(present and non-empty, by Python truthiness), else the strategy default. -/
def resolveNamespace (cfg : ResourceAlarmConfig) (defaultNs : String) : String :=
  match cfg.nspace with
  | some ns => if ns.isEmpty then defaultNs else ns
  | none => defaultNs

/-- A concrete provider of the current iteration: alarm config, the
strategy's `get_default_namespace` value, the enumerated resources, and the
strategy hooks `get_resource_name` / `dimensions`. -/
structure NewProvider where
  alarmCfg : ResourceAlarmConfig
  defaultNs : String
  resources : List String
  resourceNameOf : String → String
  dimensionsOf : String → String → List (String × String)

/-- The `MetricAlarmParam` of models.py: `TargetResource.ResourceName` plus
the `AlarmProps` dict. -/
structure NewMetricAlarmParam where
  targetResourceName : String
  alarmProps : Dict PVal
deriving DecidableEq

/-- The `AlarmProps` dict built for one (metric, resource) pair before
override application (lines 53-62 of `get_metric_alarms`). -/
def builtAlarmProps (p : NewProvider) (metric resource : String) : Dict PVal :=
  [("MetricName", .str metric),
   ("Namespace", .str (resolveNamespace p.alarmCfg p.defaultNs)),
   ("Dimensions", .kvList (p.dimensionsOf metric resource))]

/-- Lines 64-67 of `get_metric_alarms`: `if param_overrides:` (truthy, so an
empty override dict is skipped) then `param["AlarmProps"].update(...)`. -/
def applyParamOverrides (props : Dict PVal) (ov : Option (Dict PVal)) : Dict PVal :=
  match ov with
  | some o => if o.isEmpty then props else Dict.merge props o
  | none => props

/-- `TargetMetricsProviderBase.get_metric_alarms` (current iteration). -/
def newGetMetricAlarms (p : NewProvider) : List NewMetricAlarmParam :=
  p.resources.flatMap (fun resource =>
    p.alarmCfg.metrics.map (fun metric =>
      { targetResourceName := p.resourceNameOf resource,
        alarmProps := applyParamOverrides (builtAlarmProps p metric resource)
          (newParamOverrides p.alarmCfg metric) }))

/-
Lambda strategy (src/src/alarm_craft/monitoring_targets/
target_metrics_provider_rgta.py): `default_arn_pattern.sub("", arn, 1)` with
pattern `^arn:aws:[^:]*:[^:]*:[0-9]*:[^:]*:`, and the `LambdaMetricsProvider`
hooks.
-/

/-- One regex step `[^:]*:` — a greedy run of non-colon characters followed
by a literal colon: consumes characters up to and including the first colon,
failing when no colon remains. -/
def takeField : List Char → Option (List Char × List Char)
  | [] => none
  | c :: cs =>
    if c = ':' then some ([], cs)
    else (takeField cs).map (fun fr => (c :: fr.1, fr.2))

/-- A literal prefix step of the regex: consume `lit` exactly or fail. -/
def dropLit (lit s : List Char) : Option (List Char) :=
  if s.take lit.length = lit then some (s.drop lit.length) else none

/-- The anchored match of `^arn:aws:[^:]*:[^:]*:[0-9]*:[^:]*:` on a character
list, returning the unmatched remainder.  Each `[^:]*:` consumes exactly one
colon-free segment plus its colon; the account segment must additionally be
all digits (`[0-9]*:`). -/
def stripDefaultArnChars (s : List Char) : Option (List Char) :=
  match dropLit ("arn:aws:".toList) s with
  | none => none
  | some r0 =>
    match takeField r0 with
    | none => none
    | some (_svc, r1) =>
      match takeField r1 with
      | none => none
      | some (_region, r2) =>
        match takeField r2 with
        | none => none
        | some (acct, r3) =>
          if acct.all Char.isDigit then
            match takeField r3 with
            | none => none
            | some (_restype, r4) => some r4
          else none

/-- `ResourceGroupsTaggingAPITargetMetricsProviderBase.get_resource_name`:
`default_arn_pattern.sub("", arn, 1)` — strip the matched ARN prefix, or
return the ARN unchanged when the pattern does not match. -/
def stripDefaultArn (arn : String) : String :=
  match stripDefaultArnChars arn.toList with
  | some rest => String.mk rest
  | none => arn

/-- `LambdaMetricsProvider.get_default_namespace`. -/
def lambdaDefaultNs : String := "AWS/Lambda"

/-- `LambdaMetricsProvider.dimensions`:
`[{"Name": "FunctionName", "Value": get_resource_name(arn)}]`. -/
def lambdaDimensions (_metricName arn : String) : List (String × String) :=
  [("FunctionName", stripDefaultArn arn)]

/-- The `LambdaMetricsProvider` as a `NewProvider` record. -/
def lambdaProvider (alarmCfg : ResourceAlarmConfig) (resources : List String) :
    NewProvider :=
  { alarmCfg := alarmCfg, defaultNs := lambdaDefaultNs, resources := resources,
    resourceNameOf := stripDefaultArn, dimensionsOf := lambdaDimensions }

/-
Iteration semantics of `get_alarms_change_set`'s argument: the function walks
`alarm_params` twice (line 52 builds the name set, line 54 filters).  A
Python iterable is modelled by its `iterate` behaviour: iterating yields the
elements seen and the post-iteration state.
-/

/-- A Python iterable as observed by a `for`/comprehension pass: `iterate`
returns the elements the pass sees and the state left behind. -/
structure PyIterable (σ : Type) where
  iterate : σ → List MetricAlarmParam × σ

/-- `get_alarms_change_set` with its two passes over `alarm_params` made
explicit through the iterable's `iterate`. -/
def getAlarmsChangeSetOn {σ : Type} (it : PyIterable σ) (s0 : σ)
    (currentAlarmNames : Finset String) :
    List MetricAlarmParam × Finset String × Finset String :=
  let pass1 := it.iterate s0
  let requiredAlarmNames := (pass1.1.map MetricAlarmParam.alarmName).toFinset
  let pass2 := it.iterate pass1.2
  let needToCreate :=
    pass2.1.filter (fun alm => decide (alm.alarmName ∉ currentAlarmNames))
  let needToDelete := currentAlarmNames \ requiredAlarmNames
  let noUpdate := currentAlarmNames \ needToDelete
  (needToCreate, noUpdate, needToDelete)

/-- A Python list: every pass sees all elements, the list is unchanged. -/
def listIterable : PyIterable (List MetricAlarmParam) :=
  ⟨fun l => (l, l)⟩

/-- A single-pass iterator (e.g. a generator): a pass consumes the stream,
a later pass sees nothing. -/
def onePassIterator : PyIterable (List MetricAlarmParam) :=
  ⟨fun l => (l, [])⟩

/-
Theorems.  Helper lemmas first, then one theorem per claim (with witnesses
and counterexamples where applicable).
-/

theorem Dict.merge_nil {α : Type} (d : Dict α) : Dict.merge d [] = d := rfl

theorem Dict.merge_cons {α : Type} (d : Dict α) (p : String × α) (e : Dict α) :
    Dict.merge d (p :: e) = Dict.merge (Dict.set d p.1 p.2) e := rfl

theorem Dict.get?_set {α : Type} (d : Dict α) (k : String) (v : α) (k' : String) :
    (Dict.set d k v).get? k' = if k' = k then some v else d.get? k' := by
  induction d with
  | nil =>
    by_cases h : k' = k
    · subst h; simp [Dict.set, Dict.get?]
    · have hk : (k == k') = false := beq_eq_false_iff_ne.mpr (Ne.symm h)
      simp [Dict.set, Dict.get?, hk, h]
  | cons p rest ih =>
    by_cases hp : p.1 = k
    · have hp' : (p.1 == k) = true := beq_iff_eq.mpr hp
      by_cases h : k' = k
      · subst h
        simp [Dict.set, Dict.get?, hp', beq_iff_eq]
      · have hk : (k == k') = false := beq_eq_false_iff_ne.mpr (Ne.symm h)
        have hpk : (p.1 == k') = false := beq_eq_false_iff_ne.mpr (hp ▸ Ne.symm h)
        simp [Dict.set, Dict.get?, hp', hk, hpk, h]
    · have hp' : (p.1 == k) = false := beq_eq_false_iff_ne.mpr hp
      by_cases hq : p.1 = k'
      · have hq' : (p.1 == k') = true := beq_iff_eq.mpr hq
        have h : k' ≠ k := fun hc => hp (hq.trans hc)
        simp [Dict.set, Dict.get?, hp', hq', h]
      · have hq' : (p.1 == k') = false := beq_eq_false_iff_ne.mpr hq
        simpa [Dict.set, Dict.get?, hp', hq'] using ih

theorem Dict.get?_eq_none_of_not_mem_keys {α : Type} {d : Dict α} {k : String}
    (h : k ∉ d.keys) : d.get? k = none := by
  induction d with
  | nil => rfl
  | cons p rest ih =>
    simp only [Dict.keys, List.map_cons, List.mem_cons, not_or] at h
    have h1 : (p.1 == k) = false := beq_eq_false_iff_ne.mpr (Ne.symm h.1)
    simpa [Dict.get?, h1] using ih (by simpa [Dict.keys] using h.2)

/-- Merge lookup, key absent from the right operand: the left operand's
binding survives untouched. -/
theorem Dict.get?_merge_of_not_mem {α : Type} {e : Dict α} (d : Dict α) {k : String}
    (h : e.get? k = none) : (Dict.merge d e).get? k = d.get? k := by
  induction e generalizing d with
  | nil => rfl
  | cons p rest ih =>
    by_cases hp : p.1 = k
    · have : (p.1 == k) = true := beq_iff_eq.mpr hp
      simp [Dict.get?, this] at h
    · have hp' : (p.1 == k) = false := beq_eq_false_iff_ne.mpr hp
      have hrest : Dict.get? rest k = none := by simpa [Dict.get?, hp'] using h
      rw [Dict.merge_cons, ih _ hrest, Dict.get?_set,
        if_neg (fun hc : k = p.1 => hp hc.symm)]

/-- Merge lookup, key present in the right operand: the right operand wins.
The right operand's keys must be duplicate-free (always true of a real
Python dict). -/
theorem Dict.get?_merge_of_mem {α : Type} {e : Dict α} (d : Dict α) {k : String} {v : α}
    (hnd : e.keys.Nodup) (h : e.get? k = some v) :
    (Dict.merge d e).get? k = some v := by
  induction e generalizing d with
  | nil => simp [Dict.get?] at h
  | cons p rest ih =>
    simp only [Dict.keys, List.map_cons, List.nodup_cons] at hnd
    by_cases hp : p.1 = k
    · have hp' : (p.1 == k) = true := beq_iff_eq.mpr hp
      have hv : p.2 = v := by simpa [Dict.get?, hp'] using h
      have hkrest : k ∉ Dict.keys rest := by simpa [Dict.keys, hp] using hnd.1
      have hrest : Dict.get? rest k = none := Dict.get?_eq_none_of_not_mem_keys hkrest
      rw [Dict.merge_cons, Dict.get?_merge_of_not_mem _ hrest, Dict.get?_set]
      simp [hp, hv]
    · have hp' : (p.1 == k) = false := beq_eq_false_iff_ne.mpr hp
      have hrest : Dict.get? rest k = some v := by simpa [Dict.get?, hp'] using h
      rw [Dict.merge_cons]
      exact ih (Dict.set d p.1 p.2) (by simpa [Dict.keys] using hnd.2) hrest

/-- A merge never removes a key: anything bound on the left stays bound. -/
theorem Dict.get?_merge_isSome {α : Type} {d : Dict α} (e : Dict α) {k : String} {v : α}
    (hnd : e.keys.Nodup) (h : d.get? k = some v) :
    (Dict.merge d e).get? k ≠ none := by
  cases he : e.get? k with
  | none => rw [Dict.get?_merge_of_not_mem d he, h]; exact fun hc => by cases hc
  | some w => rw [Dict.get?_merge_of_mem d hnd he]; exact fun hc => by cases hc

/-- C1: for every finite list of desired alarm specs and every finite set `C`
of current alarm names, `get_alarms_change_set` returns `toCreate` = the
subsequence of desired specs (input order) whose name is not in `C`;
`toDelete` = `C` minus the desired-name set `D`; `toKeep` = `C ∩ D`; and the
three name sets are pairwise disjoint with union `C ∪ D`. -/
theorem claim_C1_changeset_diff (desired : List MetricAlarmParam) (C : Finset String) :
    (getAlarmsChangeSet desired C).1
        = desired.filter (fun a => decide (a.alarmName ∉ C))
      ∧ ((getAlarmsChangeSet desired C).1.map MetricAlarmParam.alarmName).toFinset
        = (desired.map MetricAlarmParam.alarmName).toFinset \ C
      ∧ (getAlarmsChangeSet desired C).2.2
        = C \ (desired.map MetricAlarmParam.alarmName).toFinset
      ∧ (getAlarmsChangeSet desired C).2.1
        = C ∩ (desired.map MetricAlarmParam.alarmName).toFinset
      ∧ Disjoint ((getAlarmsChangeSet desired C).1.map MetricAlarmParam.alarmName).toFinset
        (getAlarmsChangeSet desired C).2.1
      ∧ Disjoint ((getAlarmsChangeSet desired C).1.map MetricAlarmParam.alarmName).toFinset
        (getAlarmsChangeSet desired C).2.2
      ∧ Disjoint (getAlarmsChangeSet desired C).2.1 (getAlarmsChangeSet desired C).2.2
      ∧ ((getAlarmsChangeSet desired C).1.map MetricAlarmParam.alarmName).toFinset
          ∪ (getAlarmsChangeSet desired C).2.1 ∪ (getAlarmsChangeSet desired C).2.2
        = C ∪ (desired.map MetricAlarmParam.alarmName).toFinset := by
  have hcreate : (getAlarmsChangeSet desired C).1
      = desired.filter (fun a => decide (a.alarmName ∉ C)) := rfl
  have hnames : ((getAlarmsChangeSet desired C).1.map MetricAlarmParam.alarmName).toFinset
      = (desired.map MetricAlarmParam.alarmName).toFinset \ C := by
    rw [hcreate]
    ext x
    simp only [List.mem_toFinset, List.mem_map, List.mem_filter, Finset.mem_sdiff,
      decide_eq_true_eq]
    constructor
    · rintro ⟨a, ⟨ha, hnot⟩, rfl⟩
      exact ⟨⟨a, ha, rfl⟩, hnot⟩
    · rintro ⟨⟨a, ha, rfl⟩, hnot⟩
      exact ⟨a, ⟨ha, hnot⟩, rfl⟩
  have hdelete : (getAlarmsChangeSet desired C).2.2
      = C \ (desired.map MetricAlarmParam.alarmName).toFinset := rfl
  have hkeep : (getAlarmsChangeSet desired C).2.1
      = C ∩ (desired.map MetricAlarmParam.alarmName).toFinset := by
    show C \ (C \ (desired.map MetricAlarmParam.alarmName).toFinset)
      = C ∩ (desired.map MetricAlarmParam.alarmName).toFinset
    exact Finset.sdiff_sdiff_self_left C _
  refine ⟨hcreate, hnames, hdelete, hkeep, ?_, ?_, ?_, ?_⟩
  · rw [hnames, hkeep]
    rw [Finset.disjoint_left]
    intro x hx hx2
    simp only [Finset.mem_sdiff, Finset.mem_inter] at hx hx2
    exact hx.2 hx2.1
  · rw [hnames, hdelete]
    rw [Finset.disjoint_left]
    intro x hx hx2
    simp only [Finset.mem_sdiff] at hx hx2
    exact hx.2 hx2.1
  · rw [hkeep, hdelete]
    rw [Finset.disjoint_left]
    intro x hx hx2
    simp only [Finset.mem_inter, Finset.mem_sdiff] at hx hx2
    exact hx2.2 hx.2
  · rw [hnames, hkeep, hdelete]
    ext x
    simp only [Finset.mem_union, Finset.mem_sdiff, Finset.mem_inter]
    tauto

theorem buildCommonParam_get?_actions (conf : AlarmSectionConfig) (add : List String)
    (k : String)
    (hk : k = "AlarmActions" ∨ k = "OKActions" ∨ k = "InsufficientDataActions") :
    (buildCommonParam conf add).get? k
      = some (PVal.strList (conf.alarmActions ++ add)) := by
  unfold buildCommonParam
  rcases hk with rfl | rfl | rfl <;>
    cases htag : conf.alarmTagging with
  | none => simp [Dict.get?_set]
  | some tags =>
    by_cases ht : tags.isEmpty <;> simp [ht, Dict.get?_set]

theorem buildCommonParam_get?_tags (conf : AlarmSectionConfig) (add : List String)
    (tags : List (String × String)) (h : conf.alarmTagging = some tags)
    (hne : tags ≠ []) :
    (buildCommonParam conf add).get? "Tags" = some (PVal.kvList tags) := by
  unfold buildCommonParam
  rw [h]
  cases tags with
  | nil => exact absurd rfl hne
  | cons t ts => simp [List.isEmpty, Dict.get?_set]

theorem buildCommonParam_get?_other (conf : AlarmSectionConfig) (add : List String)
    (k : String) (h1 : k ≠ "AlarmActions") (h2 : k ≠ "OKActions")
    (h3 : k ≠ "InsufficientDataActions") (h4 : k ≠ "Tags") :
    (buildCommonParam conf add).get? k = conf.defaultAlarmParams.get? k := by
  unfold buildCommonParam
  cases htag : conf.alarmTagging with
  | none => simp [Dict.get?_set, h1, h2, h3]
  | some tags =>
    by_cases ht : tags.isEmpty <;> simp [ht, Dict.get?_set, h1, h2, h3, h4]

/-- C2: the final parameters of a created alarm are the layering, later
layers overwriting earlier ones, of (1) the global default alarm parameters,
(2) the action list (global actions ++ additional actions, no de-dup)
assigned identically to the three action keys, (3) the optional global
tagging as a tag list, and (4) the per-alarm dict as the final layer.  In
particular, with global default `{Threshold: 1, Statistic: "Sum"}` and
per-alarm `{Threshold: 3600}`, the result has `Threshold=3600`,
`Statistic="Sum"`. -/
theorem claim_C2_merge_layering (alarmConf : AlarmSectionConfig)
    (additionalAlarmActions : List String) (alm : Dict PVal)
    (hnd : (Dict.keys alm).Nodup) :
    (∀ k v, alm.get? k = some v →
        (createdAlarmParam alarmConf additionalAlarmActions alm).get? k = some v)
      ∧ (∀ k, alm.get? k = none →
          (createdAlarmParam alarmConf additionalAlarmActions alm).get? k
            = (buildCommonParam alarmConf additionalAlarmActions).get? k)
      ∧ (∀ k, (k = "AlarmActions" ∨ k = "OKActions" ∨ k = "InsufficientDataActions") →
          alm.get? k = none →
          (createdAlarmParam alarmConf additionalAlarmActions alm).get? k
            = some (PVal.strList (alarmConf.alarmActions ++ additionalAlarmActions)))
      ∧ (∀ tags, alarmConf.alarmTagging = some tags → tags ≠ [] →
          alm.get? "Tags" = none →
          (createdAlarmParam alarmConf additionalAlarmActions alm).get? "Tags"
            = some (PVal.kvList tags))
      ∧ (∀ k, k ≠ "AlarmActions" → k ≠ "OKActions" → k ≠ "InsufficientDataActions" →
          k ≠ "Tags" → alm.get? k = none →
          (createdAlarmParam alarmConf additionalAlarmActions alm).get? k
            = alarmConf.defaultAlarmParams.get? k)
      ∧ (createdAlarmParam
            ⟨"p-", [], [("Threshold", PVal.int 1), ("Statistic", PVal.str "Sum")], none⟩
            [] [("Threshold", PVal.int 3600)]).get? "Threshold"
          = some (PVal.int 3600)
      ∧ (createdAlarmParam
            ⟨"p-", [], [("Threshold", PVal.int 1), ("Statistic", PVal.str "Sum")], none⟩
            [] [("Threshold", PVal.int 3600)]).get? "Statistic"
          = some (PVal.str "Sum") := by
  refine ⟨?_, ?_, ?_, ?_, ?_, by decide, by decide⟩
  · intro k v h
    exact Dict.get?_merge_of_mem _ hnd h
  · intro k h
    exact Dict.get?_merge_of_not_mem _ h
  · intro k hk h
    have hm : (createdAlarmParam alarmConf additionalAlarmActions alm).get? k
        = (buildCommonParam alarmConf additionalAlarmActions).get? k :=
      Dict.get?_merge_of_not_mem _ h
    rw [hm]
    exact buildCommonParam_get?_actions alarmConf additionalAlarmActions k hk
  · intro tags htag hne h
    have hm : (createdAlarmParam alarmConf additionalAlarmActions alm).get? "Tags"
        = (buildCommonParam alarmConf additionalAlarmActions).get? "Tags" :=
      Dict.get?_merge_of_not_mem _ h
    rw [hm]
    exact buildCommonParam_get?_tags alarmConf additionalAlarmActions tags htag hne
  · intro k h1 h2 h3 h4 h
    have hm : (createdAlarmParam alarmConf additionalAlarmActions alm).get? k
        = (buildCommonParam alarmConf additionalAlarmActions).get? k :=
      Dict.get?_merge_of_not_mem _ h
    rw [hm]
    exact buildCommonParam_get?_other alarmConf additionalAlarmActions k h1 h2 h3 h4

/-- Witness for C2 at a concrete config and per-alarm override. -/
theorem claim_C2_merge_layering_witness :
    (createdAlarmParam
        ⟨"p-", [], [("Threshold", PVal.int 1), ("Statistic", PVal.str "Sum")], none⟩
        [] [("Threshold", PVal.int 3600)]).get? "Threshold"
      = some (PVal.int 3600) :=
  (claim_C2_merge_layering
      ⟨"p-", [], [("Threshold", PVal.int 1), ("Statistic", PVal.str "Sum")], none⟩
      [] [("Threshold", PVal.int 3600)] (by decide)).2.2.2.2.2.1

/-- C10: `_create_alarms` writes the three action keys (and `Tags`, when
global tagging is configured non-empty) into the config's
`default_alarm_params` dict itself, not a copy: after the call the handler's
config holds the injected keys, visible to later uses of the same config. -/
theorem claim_C10_shared_config_mutation (cfg : Config)
    (alarmParams : List (Dict PVal)) (additionalAlarmActions : List String) :
    ((createAlarmsRun cfg alarmParams additionalAlarmActions).2.globals.alarm.defaultAlarmParams
        = buildCommonParam cfg.globals.alarm additionalAlarmActions)
      ∧ ((createAlarmsRun cfg alarmParams additionalAlarmActions).2.globals.alarm.defaultAlarmParams.get?
            "AlarmActions"
          = some (PVal.strList (cfg.globals.alarm.alarmActions ++ additionalAlarmActions)))
      ∧ ((createAlarmsRun cfg alarmParams additionalAlarmActions).2.globals.alarm.defaultAlarmParams.get?
            "OKActions"
          = some (PVal.strList (cfg.globals.alarm.alarmActions ++ additionalAlarmActions)))
      ∧ ((createAlarmsRun cfg alarmParams additionalAlarmActions).2.globals.alarm.defaultAlarmParams.get?
            "InsufficientDataActions"
          = some (PVal.strList (cfg.globals.alarm.alarmActions ++ additionalAlarmActions)))
      ∧ (∀ tags, cfg.globals.alarm.alarmTagging = some tags → tags ≠ [] →
          (createAlarmsRun cfg alarmParams additionalAlarmActions).2.globals.alarm.defaultAlarmParams.get?
              "Tags"
            = some (PVal.kvList tags))
      ∧ ((Config.mk (GlobalsConfig.mk ⟨"p-", [], [], none⟩ 0)).globals.alarm.defaultAlarmParams.get?
            "AlarmActions" = none)
      ∧ ((createAlarmsRun (Config.mk (GlobalsConfig.mk ⟨"p-", [], [], none⟩ 0))
            [] []).2.globals.alarm.defaultAlarmParams.get? "AlarmActions"
          = some (PVal.strList [])) := by
  refine ⟨rfl, ?_, ?_, ?_, ?_, by decide, by decide⟩
  · exact buildCommonParam_get?_actions cfg.globals.alarm additionalAlarmActions
      "AlarmActions" (Or.inl rfl)
  · exact buildCommonParam_get?_actions cfg.globals.alarm additionalAlarmActions
      "OKActions" (Or.inr (Or.inl rfl))
  · exact buildCommonParam_get?_actions cfg.globals.alarm additionalAlarmActions
      "InsufficientDataActions" (Or.inr (Or.inr rfl))
  · intro tags htag hne
    exact buildCommonParam_get?_tags cfg.globals.alarm additionalAlarmActions tags htag hne

/-- Witness for C10 at a concrete config with non-empty tagging. -/
theorem claim_C10_shared_config_mutation_witness :
    (createAlarmsRun
        (Config.mk (GlobalsConfig.mk ⟨"p-", ["a1"], [], some [("t", "v")]⟩ 0))
        [] ["a2"]).2.globals.alarm.defaultAlarmParams.get? "Tags"
      = some (PVal.kvList [("t", "v")]) :=
  (claim_C10_shared_config_mutation
      (Config.mk (GlobalsConfig.mk ⟨"p-", ["a1"], [], some [("t", "v")]⟩ 0))
      [] ["a2"]).2.2.2.2.1 [("t", "v")] rfl (by decide)

theorem createTrace_eq (cfg : Config) (params : List (Dict PVal)) (add : List String) :
    (createAlarmsRun cfg params add).1
      = params.flatMap (fun alm =>
          ApiEvent.createCall (Dict.merge (buildCommonParam cfg.globals.alarm add) alm) ::
            (if 0 < cfg.globals.apiCallIntervalsInMillis
              then [ApiEvent.pauseMillis cfg.globals.apiCallIntervalsInMillis]
              else [])) := rfl

theorem deleteAlarmsChunks_length (l : List String) :
    (deleteAlarmsChunks l).length = (l.length + 99) / 100 := by
  simp [deleteAlarmsChunks]

theorem deleteAlarmsChunks_chunk_le (l : List String) :
    ∀ c ∈ deleteAlarmsChunks l, c.length ≤ 100 := by
  intro c hc
  simp only [deleteAlarmsChunks, List.mem_map, List.mem_range] at hc
  obtain ⟨i, -, rfl⟩ := hc
  rw [List.length_take]
  exact min_le_left _ _

theorem deleteAlarmsChunks_flatten (l : List String) :
    (deleteAlarmsChunks l).flatten = l := by
  suffices h : ∀ k (l : List String), (l.length + 99) / 100 = k →
      (deleteAlarmsChunks l).flatten = l by
    exact h _ l rfl
  intro k
  induction k with
  | zero =>
    intro l hl
    have h0 : l.length = 0 := by omega
    have hnil : l = [] := List.length_eq_zero.mp h0
    subst hnil
    simp [deleteAlarmsChunks]
  | succ k ih =>
    intro l hl
    by_cases hle : l.length ≤ 100
    · have hk0 : k = 0 := by omega
      subst hk0
      unfold deleteAlarmsChunks
      rw [hl]
      simp [List.range_succ_eq_map, List.take_of_length_le hle]
    · push_neg at hle
      have hk : ((l.drop 100).length + 99) / 100 = k := by
        rw [List.length_drop]
        omega
      have hchunks : deleteAlarmsChunks l
          = l.take 100 :: deleteAlarmsChunks (l.drop 100) := by
        unfold deleteAlarmsChunks
        rw [hl, hk, List.range_succ_eq_map, List.map_cons, List.map_map]
        refine congrArg₂ List.cons (by simp) ?_
        refine List.map_congr_left ?_
        intro i _
        show (l.drop (Nat.succ i * 100)).take 100
          = ((l.drop 100).drop (i * 100)).take 100
        rw [List.drop_drop, show 100 + i * 100 = Nat.succ i * 100 by omega]
      rw [hchunks, List.flatten_cons, ih (l.drop 100) hk, List.take_append_drop]

theorem countP_flatMap_call_tail {α : Type} (q : ApiEvent → Bool) (g : α → ApiEvent)
    (tail : List ApiEvent) (hg : ∀ x, q (g x) = true) (ht : tail.countP q = 0)
    (l : List α) :
    (l.flatMap (fun x => g x :: tail)).countP q = l.length := by
  induction l with
  | nil => rfl
  | cons p ps ih =>
    rw [List.flatMap_cons, List.countP_append, List.countP_cons, ih, ht, hg p]
    simp [Nat.add_comm]

theorem countP_flatMap_pause_tail {α : Type} (q : ApiEvent → Bool) (g : α → ApiEvent)
    (e : ApiEvent) (hg : ∀ x, q (g x) = false) (he : q e = true) (l : List α) :
    (l.flatMap (fun x => [g x, e])).countP q = l.length := by
  induction l with
  | nil => rfl
  | cons p ps ih =>
    rw [List.flatMap_cons, List.countP_append, List.countP_cons, List.countP_cons,
      List.countP_nil, ih, hg p, he]
    simp [Nat.add_comm]

theorem flatMap_pause_follows {α : Type} (q : ApiEvent → Bool) (e : ApiEvent)
    (hq : q e = false) (g : α → ApiEvent) (l : List α) :
    ∀ i ev, (l.flatMap (fun x => [g x, e]))[i]? = some ev → q ev = true →
      (l.flatMap (fun x => [g x, e]))[i + 1]? = some e := by
  induction l with
  | nil =>
    intro i ev h _
    simp at h
  | cons p ps ih =>
    intro i ev h hqe
    rw [List.flatMap_cons] at h ⊢
    cases i with
    | zero =>
      simp only [List.cons_append, List.nil_append, List.getElem?_cons_succ,
        List.getElem?_cons_zero]
    | succ j =>
      cases j with
      | zero =>
        simp only [List.cons_append, List.nil_append, List.getElem?_cons_succ,
          List.getElem?_cons_zero] at h
        obtain rfl : e = ev := Option.some.inj h
        rw [hq] at hqe
        cases hqe
      | succ m =>
        simp only [List.cons_append, List.nil_append, List.getElem?_cons_succ] at h ⊢
        exact ih m ev h hqe

theorem flatMap_pause_last {α : Type} (e : ApiEvent) (g : α → ApiEvent) (l : List α)
    (hne : l ≠ []) :
    (l.flatMap (fun x => [g x, e])).getLast? = some e := by
  induction l with
  | nil => exact absurd rfl hne
  | cons p ps ih =>
    rw [List.flatMap_cons]
    cases ps with
    | nil => simp
    | cons r rs =>
      rw [List.getLast?_append, ih (by simp)]
      rfl

theorem createTrace_eq_pos (cfg : Config) (params : List (Dict PVal)) (add : List String)
    (hpos : 0 < cfg.globals.apiCallIntervalsInMillis) :
    (createAlarmsRun cfg params add).1
      = params.flatMap (fun alm =>
          [ApiEvent.createCall (Dict.merge (buildCommonParam cfg.globals.alarm add) alm),
            ApiEvent.pauseMillis cfg.globals.apiCallIntervalsInMillis]) := by
  rw [createTrace_eq]
  exact congrArg (List.flatMap params) (funext fun alm => by rw [if_pos hpos])

theorem deleteTrace_eq (intervalMillis : Int) (names : List String) :
    deleteAlarmsTrace intervalMillis names
      = (deleteAlarmsChunks names).flatMap (fun chunk =>
          ApiEvent.deleteCall chunk ::
            (if 0 < intervalMillis then [ApiEvent.pauseMillis intervalMillis] else [])) := rfl

theorem deleteTrace_eq_pos (intervalMillis : Int) (names : List String)
    (hpos : 0 < intervalMillis) :
    deleteAlarmsTrace intervalMillis names
      = (deleteAlarmsChunks names).flatMap (fun chunk =>
          [ApiEvent.deleteCall chunk, ApiEvent.pauseMillis intervalMillis]) := by
  rw [deleteTrace_eq]
  exact congrArg (List.flatMap (deleteAlarmsChunks names))
    (funext fun chunk => by rw [if_pos hpos])

theorem deleteAlarmsChunks_ne_nil (names : List String) (hne : names ≠ []) :
    deleteAlarmsChunks names ≠ [] := by
  intro hc
  have hlc := deleteAlarmsChunks_length names
  rw [hc] at hlc
  simp only [List.length_nil] at hlc
  have hlen : names.length ≠ 0 := fun h0 => hne (List.length_eq_zero.mp h0)
  omega

set_option maxRecDepth 8000 in
/-- C4: the Apply Engine issues one create call per alarm in `toCreate`;
`toDelete` is partitioned, in input order, into consecutive chunks of at most
100 names with one delete call per chunk (`(n + 99) / 100 = ⌈n/100⌉` calls;
for 201 names, exactly 3 calls of sizes 100, 100, 1); when the configured
inter-call interval is positive, a pause of that many milliseconds follows
every create call and every delete call, including the last one of each. -/
theorem claim_C4_apply_engine_calls (cfg : Config) (params : List (Dict PVal))
    (add : List String) (names : List String) :
    ((createAlarmsRun cfg params add).1.countP ApiEvent.isCreate = params.length)
      ∧ ((deleteAlarmsTrace cfg.globals.apiCallIntervalsInMillis names).countP
            ApiEvent.isDeleteCall = (names.length + 99) / 100)
      ∧ ((deleteAlarmsChunks names).flatten = names)
      ∧ (∀ c ∈ deleteAlarmsChunks names, c.length ≤ 100)
      ∧ ((deleteAlarmsChunks (List.replicate 201 "a")).map List.length = [100, 100, 1])
      ∧ ((deleteAlarmsTrace (334 : Int) (List.replicate 201 "a")).countP
            ApiEvent.isDeleteCall = 3)
      ∧ (0 < cfg.globals.apiCallIntervalsInMillis →
          ∀ i ev, (createAlarmsRun cfg params add).1[i]? = some ev →
            ev.isCreate = true →
            (createAlarmsRun cfg params add).1[i + 1]?
              = some (ApiEvent.pauseMillis cfg.globals.apiCallIntervalsInMillis))
      ∧ (0 < cfg.globals.apiCallIntervalsInMillis → params ≠ [] →
          (createAlarmsRun cfg params add).1.getLast?
            = some (ApiEvent.pauseMillis cfg.globals.apiCallIntervalsInMillis))
      ∧ (0 < cfg.globals.apiCallIntervalsInMillis →
          (createAlarmsRun cfg params add).1.countP ApiEvent.isPause = params.length)
      ∧ (0 < cfg.globals.apiCallIntervalsInMillis →
          ∀ i ev,
            (deleteAlarmsTrace cfg.globals.apiCallIntervalsInMillis names)[i]? = some ev →
            ev.isDeleteCall = true →
            (deleteAlarmsTrace cfg.globals.apiCallIntervalsInMillis names)[i + 1]?
              = some (ApiEvent.pauseMillis cfg.globals.apiCallIntervalsInMillis))
      ∧ (0 < cfg.globals.apiCallIntervalsInMillis → names ≠ [] →
          (deleteAlarmsTrace cfg.globals.apiCallIntervalsInMillis names).getLast?
            = some (ApiEvent.pauseMillis cfg.globals.apiCallIntervalsInMillis))
      ∧ (0 < cfg.globals.apiCallIntervalsInMillis →
          (deleteAlarmsTrace cfg.globals.apiCallIntervalsInMillis names).countP
              ApiEvent.isPause = (names.length + 99) / 100) := by
  refine ⟨?_, ?_, deleteAlarmsChunks_flatten names, deleteAlarmsChunks_chunk_le names,
    by decide, by decide, ?_, ?_, ?_, ?_, ?_, ?_⟩
  · rw [createTrace_eq]
    exact countP_flatMap_call_tail ApiEvent.isCreate
      (fun alm => ApiEvent.createCall (Dict.merge (buildCommonParam cfg.globals.alarm add) alm))
      (if 0 < cfg.globals.apiCallIntervalsInMillis
        then [ApiEvent.pauseMillis cfg.globals.apiCallIntervalsInMillis] else [])
      (fun x => rfl)
      (by by_cases h : 0 < cfg.globals.apiCallIntervalsInMillis <;>
        simp [h, List.countP_cons, ApiEvent.isCreate])
      params
  · rw [deleteTrace_eq,
      countP_flatMap_call_tail ApiEvent.isDeleteCall
        (fun chunk => ApiEvent.deleteCall chunk)
        (if 0 < cfg.globals.apiCallIntervalsInMillis
          then [ApiEvent.pauseMillis cfg.globals.apiCallIntervalsInMillis] else [])
        (fun x => rfl)
        (by by_cases h : 0 < cfg.globals.apiCallIntervalsInMillis <;>
          simp [h, List.countP_cons, ApiEvent.isDeleteCall])
        (deleteAlarmsChunks names)]
    exact deleteAlarmsChunks_length names
  · intro hpos i ev h hq
    rw [createTrace_eq_pos cfg params add hpos] at h ⊢
    exact flatMap_pause_follows ApiEvent.isCreate
      (ApiEvent.pauseMillis cfg.globals.apiCallIntervalsInMillis) rfl
      (fun alm => ApiEvent.createCall (Dict.merge (buildCommonParam cfg.globals.alarm add) alm))
      params i ev h hq
  · intro hpos hne
    rw [createTrace_eq_pos cfg params add hpos]
    exact flatMap_pause_last (ApiEvent.pauseMillis cfg.globals.apiCallIntervalsInMillis)
      (fun alm => ApiEvent.createCall (Dict.merge (buildCommonParam cfg.globals.alarm add) alm))
      params hne
  · intro hpos
    rw [createTrace_eq_pos cfg params add hpos]
    exact countP_flatMap_pause_tail ApiEvent.isPause
      (fun alm => ApiEvent.createCall (Dict.merge (buildCommonParam cfg.globals.alarm add) alm))
      (ApiEvent.pauseMillis cfg.globals.apiCallIntervalsInMillis)
      (fun x => rfl) rfl params
  · intro hpos i ev h hq
    rw [deleteTrace_eq_pos _ names hpos] at h ⊢
    exact flatMap_pause_follows ApiEvent.isDeleteCall
      (ApiEvent.pauseMillis cfg.globals.apiCallIntervalsInMillis) rfl
      (fun chunk => ApiEvent.deleteCall chunk) (deleteAlarmsChunks names) i ev h hq
  · intro hpos hne
    rw [deleteTrace_eq_pos _ names hpos]
    exact flatMap_pause_last (ApiEvent.pauseMillis cfg.globals.apiCallIntervalsInMillis)
      (fun chunk => ApiEvent.deleteCall chunk) (deleteAlarmsChunks names)
      (deleteAlarmsChunks_ne_nil names hne)
  · intro hpos
    rw [deleteTrace_eq_pos _ names hpos,
      countP_flatMap_pause_tail ApiEvent.isPause (fun chunk => ApiEvent.deleteCall chunk)
        (ApiEvent.pauseMillis cfg.globals.apiCallIntervalsInMillis) (fun x => rfl) rfl
        (deleteAlarmsChunks names)]
    exact deleteAlarmsChunks_length names

/-- Witness for C4: the 201-name deletion with interval 334 ends in a pause. -/
theorem claim_C4_apply_engine_calls_witness :
    (deleteAlarmsTrace (334 : Int) (List.replicate 201 "a")).getLast?
      = some (ApiEvent.pauseMillis 334) :=
  (claim_C4_apply_engine_calls
      (Config.mk (GlobalsConfig.mk ⟨"p-", [], [], none⟩ 334)) [] []
      (List.replicate 201 "a")).2.2.2.2.2.2.2.2.2.2.1 (by decide) (by decide)

theorem getCurrentAlarmsAux_spec (pages : List (List String)) (pre : String) :
    ∀ fuel token, pages.length ≤ token + fuel → 0 < fuel →
      getCurrentAlarmsAux pages pre token fuel
        = ((List.range' token (max (pages.length - token) 1)).map
            (fun t => (⟨t, pre, 100⟩ : DescribeAlarmsRequest)),
          (pages.drop token).flatten) := by
  intro fuel
  induction fuel with
  | zero =>
    intro token _ h0
    exact absurd h0 (by omega)
  | succ fuel ih =>
    intro token hle _
    by_cases hnext : token + 1 < pages.length
    · have hfuel : 0 < fuel := by omega
      have hrec := ih (token + 1) (by omega) hfuel
      have hstep : getCurrentAlarmsAux pages pre token (fuel + 1)
          = (⟨token, pre, 100⟩ ::
              (getCurrentAlarmsAux pages pre (token + 1) fuel).1,
            (pages.drop token).headD []
              ++ (getCurrentAlarmsAux pages pre (token + 1) fuel).2) := by
        simp [getCurrentAlarmsAux, describeAlarms, hnext]
      rw [hstep, hrec]
      have hm1 : max (pages.length - (token + 1)) 1 = pages.length - (token + 1) :=
        Nat.max_eq_left (by omega)
      have hm2 : max (pages.length - token) 1 = pages.length - token :=
        Nat.max_eq_left (by omega)
      have hn : pages.length - token = (pages.length - (token + 1)) + 1 := by omega
      have hreq : List.range' token (max (pages.length - token) 1)
          = token :: List.range' (token + 1) (max (pages.length - (token + 1)) 1) := by
        rw [hm1, hm2, hn, List.range'_succ]
      have hdrop : pages.drop token
          = pages[token] :: pages.drop (token + 1) :=
        List.drop_eq_getElem_cons (by omega)
      rw [hreq, List.map_cons]
      refine congrArg₂ Prod.mk rfl ?_
      rw [hdrop, List.flatten_cons, List.headD_cons]
    · have hstep : getCurrentAlarmsAux pages pre token (fuel + 1)
          = ([⟨token, pre, 100⟩], (pages.drop token).headD []) := by
        simp [getCurrentAlarmsAux, describeAlarms, hnext]
      rw [hstep]
      have hm : max (pages.length - token) 1 = 1 :=
        Nat.max_eq_right (by omega)
      rw [hm]
      by_cases htok : token < pages.length
      · have hdrop : pages.drop token
            = pages[token] :: pages.drop (token + 1) :=
          List.drop_eq_getElem_cons htok
        have hnil : pages.drop (token + 1) = [] :=
          List.drop_eq_nil_of_le (by omega)
        rw [hdrop, hnil]
        simp [List.range'_succ]
      · have hdrop : pages.drop token = [] :=
          List.drop_eq_nil_of_le (by omega)
        rw [hdrop]
        simp [List.range'_succ]

/-- C3: with the backend `describe_alarms` modelled as a token-indexed page
function (pages of at most 100 alarms plus an optional continuation token),
the fetch loop requests every page with `MaxRecords=100`, continues exactly
while a token is returned, and aggregates every page before diffing: for
N > 100 current alarms split across pages of ≤ 100, the aggregated
current-name set has exactly N members wherever the page boundaries fall. -/
theorem claim_C3_pagination_completeness (pages : List (List String)) (pre : String)
    (N : Nat) (hpage : ∀ p ∈ pages, p.length ≤ 100) (hnodup : pages.flatten.Nodup)
    (hN : pages.flatten.length = N) (hgt : 100 < N) :
    ((getCurrentAlarms pages pre).2 = pages.flatten)
      ∧ ((getCurrentAlarms pages pre).2.toFinset.card = N)
      ∧ (∀ r ∈ (getCurrentAlarms pages pre).1, r.maxRecords = 100)
      ∧ ((getCurrentAlarms pages pre).1.length = pages.length)
      ∧ ((getCurrentAlarms pages pre).1
          = (List.range pages.length).map
              (fun t => (⟨t, pre, 100⟩ : DescribeAlarmsRequest))) := by
  have hlen : 1 ≤ pages.length := by
    by_contra hc
    push_neg at hc
    interval_cases h : pages.length
    · have : pages = [] := List.length_eq_zero.mp h
      subst this
      simp at hN
      omega
  have hspec := getCurrentAlarmsAux_spec pages pre (max pages.length 1) 0
    (by omega) (by omega)
  have hga : getCurrentAlarms pages pre
      = ((List.range' 0 (max (pages.length - 0) 1)).map
          (fun t => (⟨t, pre, 100⟩ : DescribeAlarmsRequest)),
        (pages.drop 0).flatten) := hspec
  have h2 : (getCurrentAlarms pages pre).2 = pages.flatten := by
    rw [hga]
    simp
  refine ⟨h2, ?_, ?_, ?_, ?_⟩
  · rw [h2, List.toFinset_card_of_nodup hnodup, hN]
  · intro r hr
    rw [hga] at hr
    simp only [List.mem_map] at hr
    obtain ⟨t, -, rfl⟩ := hr
    rfl
  · rw [hga]
    simp only [List.length_map, List.length_range']
    rw [Nat.sub_zero]
    exact Nat.max_eq_left hlen
  · rw [hga, List.range_eq_range', Nat.sub_zero, Nat.max_eq_left hlen]

set_option maxRecDepth 8000 in
/-- Witness for C3 at a concrete two-page backend holding 101 distinct names. -/
theorem claim_C3_pagination_completeness_witness :
    (getCurrentAlarms [(List.range 100).map (fun i => toString i), ["a"]] "p-").2.toFinset.card
      = 101 :=
  (claim_C3_pagination_completeness
      [(List.range 100).map (fun i => toString i), ["a"]] "p-" 101
      (by decide) (by decide) (by decide) (by decide)).2.1

/-- C5 counterexample: with a valid first group and an unknown-type second
group, consuming `get_target_metrics` performs the first group's backend
enumeration call before the `ValueError` for the second group is raised — so
the configuration error is not raised before every backend call.  The first
event of the run is a backend call, yet the run does contain the error. -/
theorem claim_C5_fail_fast_counterexample :
    runGetTargetMetrics ["lambda:function"] (fun _ => 1)
        [⟨"g1", "lambda:function"⟩, ⟨"g2", "bogus"⟩]
      = [EnumEvent.backendCall "g1", EnumEvent.configError "bogus"]
      ∧ EnumEvent.configError "bogus"
          ∈ runGetTargetMetrics ["lambda:function"] (fun _ => 1)
              [⟨"g1", "lambda:function"⟩, ⟨"g2", "bogus"⟩]
      ∧ (runGetTargetMetrics ["lambda:function"] (fun _ => 1)
            [⟨"g1", "lambda:function"⟩, ⟨"g2", "bogus"⟩]).head?
        = some (EnumEvent.backendCall "g1") := by
  refine ⟨by decide, by decide, by decide⟩

/-- C5 amended: an unknown resource-type key makes the run fail with a
configuration error when its group is reached in config order: no backend
call is made for the offending group or for any later group, but the
enumeration calls of the earlier (valid) groups have already happened. -/
theorem claim_C5_config_error_on_reach (known : List String)
    (numBackendCalls : String → Nat) (pre post : List ResourceGroup)
    (bad : ResourceGroup)
    (hpre : ∀ g ∈ pre, g.targetResourceType ∈ known)
    (hbad : bad.targetResourceType ∉ known) :
    runGetTargetMetrics known numBackendCalls (pre ++ bad :: post)
      = (pre.flatMap (fun g =>
            List.replicate (numBackendCalls g.groupKey)
              (EnumEvent.backendCall g.groupKey)))
          ++ [EnumEvent.configError bad.targetResourceType] := by
  induction pre with
  | nil =>
    simp [runGetTargetMetrics, hbad]
  | cons g gs ih =>
    have hg : g.targetResourceType ∈ known := hpre g (List.mem_cons_self g gs)
    have hgs : ∀ x ∈ gs, x.targetResourceType ∈ known :=
      fun x hx => hpre x (List.mem_cons_of_mem g hx)
    simp only [List.cons_append, runGetTargetMetrics, hg, if_true, List.append_eq]
    rw [ih hgs, List.flatMap_cons, List.append_assoc]

/-- Witness for the amended C5 at a concrete two-group configuration. -/
theorem claim_C5_config_error_on_reach_witness :
    runGetTargetMetrics ["lambda:function"] (fun _ => 1)
        ([⟨"g1", "lambda:function"⟩] ++ (⟨"g2", "bogus"⟩ : ResourceGroup) :: [])
      = ([(⟨"g1", "lambda:function"⟩ : ResourceGroup)].flatMap (fun g =>
            List.replicate 1 (EnumEvent.backendCall g.groupKey)))
          ++ [EnumEvent.configError "bogus"] :=
  claim_C5_config_error_on_reach ["lambda:function"] (fun _ => 1)
    [⟨"g1", "lambda:function"⟩] [] ⟨"g2", "bogus"⟩ (by decide) (by decide)

theorem oldBuildParam_get?_alarmName (p : OldProvider) (metric resource : String)
    (hov : ∀ ov, oldParamOverrides p metric = some ov → ov.get? "AlarmName" = none) :
    (oldBuildParam p metric resource).get? "AlarmName"
      = some (PVal.str (oldAlarmName p metric resource)) := by
  unfold oldBuildParam
  cases h : oldParamOverrides p metric with
  | none => rfl
  | some ov =>
    rw [Dict.get?_merge_of_not_mem _ (hov ov h)]
    rfl

/-- C6: every alarm spec produced by the superseded Builder carries
`AlarmName = alarm_name_prefix ++ resource short name ++ "-" ++ metric name`
— the identity key used by the Calculator — and every (resource, metric)
pair yields such a spec.  `hov` states that overrides never carry an
`AlarmName` key (guaranteed upstream by the JSON schema, whose
`alarm_params` records admit no such key). -/
theorem claim_C6_alarm_name_shape (p : OldProvider)
    (hov : ∀ m ov, oldParamOverrides p m = some ov → ov.get? "AlarmName" = none) :
    (∀ d ∈ oldGetMetricAlarms p, ∃ r ∈ p.resources, ∃ m ∈ p.svc.metrics,
        d.get? "AlarmName"
          = some (PVal.str (p.namePre ++ p.resourceNameOf r ++ "-" ++ m)))
      ∧ (∀ r ∈ p.resources, ∀ m ∈ p.svc.metrics, ∃ d ∈ oldGetMetricAlarms p,
          d.get? "AlarmName"
            = some (PVal.str (p.namePre ++ p.resourceNameOf r ++ "-" ++ m))) := by
  constructor
  · intro d hd
    simp only [oldGetMetricAlarms, List.mem_flatMap, List.mem_map] at hd
    obtain ⟨r, hr, m, hm, rfl⟩ := hd
    exact ⟨r, hr, m, hm, oldBuildParam_get?_alarmName p m r (hov m)⟩
  · intro r hr m hm
    refine ⟨oldBuildParam p m r, ?_, oldBuildParam_get?_alarmName p m r (hov m)⟩
    simp only [oldGetMetricAlarms, List.mem_flatMap, List.mem_map]
    exact ⟨r, hr, m, hm, rfl⟩

/-- Witness for C6 at a concrete provider without overrides. -/
theorem claim_C6_alarm_name_shape_witness :
    ∃ d ∈ oldGetMetricAlarms
        ⟨"p-", ⟨"AWS/X", ["m1"], none⟩, ["r1"], id, fun _ _ => []⟩,
      d.get? "AlarmName" = some (PVal.str ("p-" ++ id "r1" ++ "-" ++ "m1")) :=
  (claim_C6_alarm_name_shape
      ⟨"p-", ⟨"AWS/X", ["m1"], none⟩, ["r1"], id, fun _ _ => []⟩
      (fun m ov h => by simp [oldParamOverrides] at h)).2
    "r1" (by decide) "m1" (by decide)

/-- C7: the Builder's override application is a shallow merge: every key of
the override record replaces the corresponding key of the built `AlarmProps`,
every key not mentioned keeps its built value, no key is removed, and a
metric with no entry in the overrides map returns the built `AlarmProps`
entirely unchanged (visible in the pipeline output unchanged). -/
theorem claim_C7_override_shallow_merge (p : NewProvider) :
    (∀ metric resource, newParamOverrides p.alarmCfg metric = none →
        applyParamOverrides (builtAlarmProps p metric resource)
            (newParamOverrides p.alarmCfg metric)
          = builtAlarmProps p metric resource)
      ∧ (∀ metric ov, newParamOverrides p.alarmCfg metric = some ov →
          (Dict.keys ov).Nodup →
          ∀ resource k v, ov.get? k = some v →
            (applyParamOverrides (builtAlarmProps p metric resource)
                (newParamOverrides p.alarmCfg metric)).get? k = some v)
      ∧ (∀ metric ov, newParamOverrides p.alarmCfg metric = some ov →
          ∀ resource k, ov.get? k = none →
            (applyParamOverrides (builtAlarmProps p metric resource)
                (newParamOverrides p.alarmCfg metric)).get? k
              = (builtAlarmProps p metric resource).get? k)
      ∧ (∀ metric ov, newParamOverrides p.alarmCfg metric = some ov →
          (Dict.keys ov).Nodup →
          ∀ resource k v,
            (builtAlarmProps p metric resource).get? k = some v →
            (applyParamOverrides (builtAlarmProps p metric resource)
                (newParamOverrides p.alarmCfg metric)).get? k ≠ none)
      ∧ (∀ r ∈ p.resources, ∀ metric ∈ p.alarmCfg.metrics,
          newParamOverrides p.alarmCfg metric = none →
          (⟨p.resourceNameOf r, builtAlarmProps p metric r⟩ : NewMetricAlarmParam)
            ∈ newGetMetricAlarms p) := by
  refine ⟨?_, ?_, ?_, ?_, ?_⟩
  · intro metric resource h
    rw [h]
    rfl
  · intro metric ov h hnd resource k v hk
    rw [h]
    cases ov with
    | nil => simp [Dict.get?] at hk
    | cons q qs => exact Dict.get?_merge_of_mem _ hnd hk
  · intro metric ov h resource k hk
    rw [h]
    cases ov with
    | nil => rfl
    | cons q qs => exact Dict.get?_merge_of_not_mem _ hk
  · intro metric ov h hnd resource k v hv
    rw [h]
    cases ov with
    | nil =>
      intro hc
      rw [show applyParamOverrides (builtAlarmProps p metric resource) (some [])
          = builtAlarmProps p metric resource from rfl, hv] at hc
      cases hc
    | cons q qs => exact Dict.get?_merge_isSome _ hnd hv
  · intro r hr metric hm hnone
    simp only [newGetMetricAlarms, List.mem_flatMap, List.mem_map]
    exact ⟨r, hr, metric, hm, by rw [hnone]; rfl⟩

/-- Witness for C7 at a concrete provider whose overrides map is absent. -/
theorem claim_C7_override_shallow_merge_witness :
    applyParamOverrides
        (builtAlarmProps (lambdaProvider ⟨none, ["m1"], none⟩ []) "m1" "r")
        (newParamOverrides (lambdaProvider ⟨none, ["m1"], none⟩ []).alarmCfg "m1")
      = builtAlarmProps (lambdaProvider ⟨none, ["m1"], none⟩ []) "m1" "r" :=
  (claim_C7_override_shallow_merge (lambdaProvider ⟨none, ["m1"], none⟩ [])).1
    "m1" "r" rfl

theorem takeField_append (xs ys : List Char) (h : ':' ∉ xs) :
    takeField (xs ++ ':' :: ys) = some (xs, ys) := by
  induction xs with
  | nil => simp [takeField]
  | cons c cs ih =>
    simp only [List.mem_cons, not_or] at h
    have hc : c ≠ ':' := fun hh => h.1 hh.symm
    simp [takeField, hc, ih h.2]

theorem dropLit_append (lit s : List Char) : dropLit lit (lit ++ s) = some s := by
  simp [dropLit, List.take_left, List.drop_left]

theorem stripDefaultArnChars_spec (svc region acct rtype name : List Char)
    (hsvc : ':' ∉ svc) (hregion : ':' ∉ region)
    (hacct : acct.all Char.isDigit = true) (hrtype : ':' ∉ rtype) :
    stripDefaultArnChars
        ("arn:aws:".toList
          ++ (svc ++ ':' :: (region ++ ':' :: (acct ++ ':' :: (rtype ++ ':' :: name)))))
      = some name := by
  have hacctc : ':' ∉ acct := fun hm =>
    absurd (List.all_eq_true.mp hacct ':' hm) (by decide)
  unfold stripDefaultArnChars
  simp only [dropLit_append, takeField_append _ _ hsvc, takeField_append _ _ hregion,
    takeField_append _ _ hacctc, takeField_append _ _ hrtype, hacct, if_true]

theorem lambdaArn_toList (region account name : String) :
    ("arn:aws:lambda:" ++ region ++ ":" ++ account ++ ":function:" ++ name).toList
      = "arn:aws:".toList
          ++ ("lambda".toList ++ ':' :: (region.toList ++ ':' ::
            (account.toList ++ ':' :: ("function".toList ++ ':' :: name.toList)))) := by
  have h1 : ("arn:aws:lambda:".data : List Char)
      = "arn:aws:".data ++ ("lambda".data ++ [':']) := by decide
  have h2 : (":".data : List Char) = [':'] := by decide
  have h3 : (":function:".data : List Char)
      = ':' :: ("function".data ++ [':']) := by decide
  simp only [String.toList, String.data_append, h1, h2, h3]
  simp [List.append_assoc]

theorem stripDefaultArn_lambda (region account name : String)
    (hregion : ':' ∉ region.toList)
    (haccount : account.toList.all Char.isDigit = true) :
    stripDefaultArn
        ("arn:aws:lambda:" ++ region ++ ":" ++ account ++ ":function:" ++ name)
      = name := by
  unfold stripDefaultArn
  rw [lambdaArn_toList region account name,
    stripDefaultArnChars_spec "lambda".toList region.toList account.toList
      "function".toList name.toList (by decide) hregion haccount (by decide)]
  cases name with
  | mk data => rfl

/-- C8, amended: for every ARN `arn:aws:lambda:<region>:<account>:function:<name>`
(colon-free region, all-digit account) the Lambda strategy derives short name
`<name>` and dimensions `[{Name: FunctionName, Value: <name>}]`; an absent —
or empty-string, by Python truthiness — configured namespace falls back to
the default `AWS/Lambda`, and a configured non-empty namespace is used
instead of the default. -/
theorem claim_C8_lambda_strategy (region account name : String)
    (metrics : List String) (ovs : Option (Dict (Dict PVal)))
    (hregion : ':' ∉ region.toList)
    (haccount : account.toList.all Char.isDigit = true) :
    (stripDefaultArn
        ("arn:aws:lambda:" ++ region ++ ":" ++ account ++ ":function:" ++ name)
      = name)
      ∧ (∀ metric, lambdaDimensions metric
            ("arn:aws:lambda:" ++ region ++ ":" ++ account ++ ":function:" ++ name)
          = [("FunctionName", name)])
      ∧ (resolveNamespace ⟨none, metrics, ovs⟩ lambdaDefaultNs = "AWS/Lambda")
      ∧ (∀ ns, ns ≠ "" →
          resolveNamespace ⟨some ns, metrics, ovs⟩ lambdaDefaultNs = ns)
      ∧ (resolveNamespace ⟨some "", metrics, ovs⟩ lambdaDefaultNs = "AWS/Lambda") := by
  have hstrip := stripDefaultArn_lambda region account name hregion haccount
  refine ⟨hstrip, ?_, rfl, ?_, rfl⟩
  · intro metric
    unfold lambdaDimensions
    rw [hstrip]
  · intro ns hns
    have hie : ns.isEmpty = false := by
      cases h : ns.isEmpty with
      | false => rfl
      | true => exact absurd ((String.isEmpty_iff ns).mp h) hns
    simp [resolveNamespace, hie]

/-- C8 counterexample: a configured (hence "explicit") empty-string namespace
is not used: Python truthiness (`if namespace:`) makes `namespace()` fall
back to the strategy default `AWS/Lambda` instead of the configured value. -/
theorem claim_C8_namespace_truthiness_counterexample :
    resolveNamespace ⟨some "", ["m1"], none⟩ lambdaDefaultNs = "AWS/Lambda"
      ∧ resolveNamespace ⟨some "", ["m1"], none⟩ lambdaDefaultNs ≠ "" := by
  refine ⟨by decide, by decide⟩

/-- Witness for C8 at a concrete Lambda function ARN. -/
theorem claim_C8_lambda_strategy_witness :
    stripDefaultArn ("arn:aws:lambda:" ++ "us-east-1" ++ ":" ++ "123456789012"
        ++ ":function:" ++ "myFn") = "myFn" :=
  (claim_C8_lambda_strategy "us-east-1" "123456789012" "myFn" ["m1"] none
      (by decide) (by decide)).1

/-- C9: `get_alarms_change_set` iterates `alarm_params` twice (name set, then
`toCreate` filter); for a list both passes see the same elements and the
result coincides with `getAlarmsChangeSet`, but for a single-pass iterator
the second pass sees an exhausted stream, so `toCreate` is empty even when
desired names are absent from the current-alarm set — correctness is
conditional on the argument being re-iterable. -/
theorem claim_C9_iterator_exhaustion (l : List MetricAlarmParam) (C : Finset String) :
    (getAlarmsChangeSetOn listIterable l C = getAlarmsChangeSet l C)
      ∧ ((getAlarmsChangeSetOn onePassIterator l C).1 = [])
      ∧ ((getAlarmsChangeSetOn onePassIterator l C).2.2
          = (getAlarmsChangeSet l C).2.2)
      ∧ ((getAlarmsChangeSetOn onePassIterator l C).2.1
          = (getAlarmsChangeSet l C).2.1)
      ∧ (∀ alm : MetricAlarmParam, alm.alarmName ∉ C →
          (getAlarmsChangeSetOn onePassIterator [alm] C).1 = []
            ∧ (getAlarmsChangeSet [alm] C).1 = [alm]) := by
  refine ⟨rfl, rfl, rfl, rfl, ?_⟩
  intro alm h
  refine ⟨rfl, ?_⟩
  simp [getAlarmsChangeSet, h]

/-- Witness for C9: one desired alarm absent from an empty current set is
created by the list version but lost by the single-pass iterator version. -/
theorem claim_C9_iterator_exhaustion_witness :
    (getAlarmsChangeSetOn onePassIterator [⟨"a1", []⟩] ∅).1 = []
      ∧ (getAlarmsChangeSet [⟨"a1", []⟩] ∅).1 = [⟨"a1", []⟩] :=
  (claim_C9_iterator_exhaustion [⟨"a1", []⟩] ∅).2.2.2.2 ⟨"a1", []⟩ (by decide)
